import Mathlib

/-!
Verification of the LiveCodeBench benchmark runner (`scripts/run_benchmark.py`).

The evaluation harness is shallowly embedded: pure Python functions become
Lean functions; the two ambient effects are passed explicitly as oracles:
  * the subprocess spawned by `execute_code_with_input` is a `ProcResult`
    value (the observable outcome of `subprocess.run`), supplied by an
    oracle `sys : String → String → ProcResult` mapping (code, stdin);
  * `json.loads` on a test-case field is an oracle
    `jp : String → Option (List TestCase)` (`none` models a
    `json.JSONDecodeError`);
  * the model-generation call is an oracle
    `gen : String → Except String (String × Nat × Nat)` mapping a prompt to
    either a raised exception message or (response_text, in_tokens, out_tokens);
  * wall-clock latency is an explicit `latency_ms` parameter.
Python `str.strip()` is `pyStrip`, Python float arithmetic on costs and
score is modelled exactly over `ℚ`, and the two `re.findall` calls in
`extract_code_from_response` are modelled by a faithful left-to-right
backtracking scanner over `List Char`.
-/

/-- Timeout constant from the source: `CODE_EXECUTION_TIMEOUT = 30` seconds. -/
def CODE_EXECUTION_TIMEOUT : Nat := 30

/-- Observable outcome of one `subprocess.run` invocation: either the
30-second timeout expired (`subprocess.TimeoutExpired`), or the process
completed with a return code and captured stdout/stderr, or some other
exception was raised by the spawn machinery. -/
inductive ProcResult where
  | timeout : ProcResult
  | completed (returncode : Int) (stdout stderr : String) : ProcResult
  | raised (msg : String) : ProcResult
deriving DecidableEq, Repr

/-- List-level model of Python `needle in haystack` begins here: prefix test. -/
def startsWithList : List Char → List Char → Bool
  | [], _ => true
  | _ :: _, [] => false
  | p :: ps, c :: cs => p = c && startsWithList ps cs

/-- Does the character list contain `"SyntaxError"` as a contiguous substring? -/
def containsMarker : List Char → Bool
  | [] => false
  | c :: rest => startsWithList ("SyntaxError".toList) (c :: rest) || containsMarker rest

/-- Python `"SyntaxError" in result.stderr` from line 181 of the source. -/
def containsSyntaxError (s : String) : Bool := containsMarker s.toList

/-- Python `str.strip()`: remove leading and trailing whitespace only. -/
def pyStrip (s : String) : String :=
  String.mk (((s.toList.dropWhile Char.isWhitespace).reverse.dropWhile Char.isWhitespace).reverse)

/-- Embedding of `execute_code_with_input` (lines 159-190): classify the
outcome of the spawned subprocess into `(success, error_type, output)`. -/
def execute_code_with_input (res : ProcResult) : Bool × Option String × String :=
  match res with
  | ProcResult.completed returncode _stdout stderr =>
    if returncode ≠ 0 then
      if containsSyntaxError stderr then (false, some "syntax", stderr)
      else (false, some "runtime", stderr)
    else (true, none, _stdout)
  | ProcResult.timeout => (false, some "timeout", "")
  | ProcResult.raised e => (false, some "runtime", e)

/-- One test case: `{"input": ..., "output": ...}` with the `.get` defaults
of lines 199-200 already applied. -/
structure TestCase where
  input : String
  output : String
deriving DecidableEq, Repr

/-- Embedding of `run_test_cases` (lines 193-212): run the code on each case
in order, stopping at the first execution failure or output mismatch. -/
def run_test_cases (sys : String → String → ProcResult) (code : String) :
    List TestCase → Bool × Option String
  | [] => (true, none)
  | tc :: rest =>
    let expected_output := pyStrip tc.output
    match execute_code_with_input (sys code tc.input) with
    | (success, error_type, actual_output) =>
      if success = false then (false, error_type)
      else if pyStrip actual_output = expected_output then run_test_cases sys code rest
      else (false, some "wrong_answer")

/-- Instrumented variant of `run_test_cases` that additionally records the
stdin of every test case actually handed to the sandbox, in order. -/
def run_test_cases_trace (sys : String → String → ProcResult) (code : String) :
    List TestCase → (Bool × Option String) × List String
  | [] => ((true, none), [])
  | tc :: rest =>
    let expected_output := pyStrip tc.output
    match execute_code_with_input (sys code tc.input) with
    | (success, error_type, actual_output) =>
      if success = false then ((false, error_type), [tc.input])
      else if pyStrip actual_output = expected_output then
        let r := run_test_cases_trace sys code rest
        (r.1, tc.input :: r.2)
      else ((false, some "wrong_answer"), [tc.input])

/-- The verdict `run_test_cases` reaches on one single case: `none` means the
case passes, `some e` is the error kind the loop would return for it. -/
def caseOutcome (sys : String → String → ProcResult) (code : String) (tc : TestCase) :
    Option String :=
  match execute_code_with_input (sys code tc.input) with
  | (success, error_type, actual_output) =>
    if success = false then error_type
    else if pyStrip actual_output = pyStrip tc.output then none
    else some "wrong_answer"

/-- A test case passes iff its `caseOutcome` is empty. -/
def casePasses (sys : String → String → ProcResult) (code : String) (tc : TestCase) : Bool :=
  (caseOutcome sys code tc).isNone

/-- Concrete sandbox oracle whose process always hits the timeout. -/
def sysTimeoutW : String → String → ProcResult := fun _ _ => ProcResult.timeout

/-- Concrete sandbox oracle whose process exits 0 printing `out`. -/
def sysOutW (out : String) : String → String → ProcResult :=
  fun _ _ => ProcResult.completed 0 out ""

/-- Concrete two-element test-case list used to witness the verifier claims. -/
def casesW : List TestCase := [⟨"a", "1"⟩, ⟨"b", "2"⟩]

/-- Word characters of the regex class `\w` (ASCII reading). -/
def isWordChar (c : Char) : Bool := c.isAlphanum || c = '_'

/-- Scan forward to the first closing triple-backtick fence: on success,
return the characters before it (the non-greedy `(.*?)` capture) and the
characters after the fence. -/
def findClose : List Char → Option (List Char × List Char)
  | [] => none
  | c :: rest =>
    if startsWithList ("```".toList) (c :: rest) then some ([], (c :: rest).drop 3)
    else
      match findClose rest with
      | some (cap, r2) => some (c :: cap, r2)
      | none => none

/-- Header of the tagged-fence regex of line 74: triple backtick, the
alternation `python|py` (source order, as the regex engine tries it), then a
newline. Returns the remainder after the header on a match. -/
def pyHeaderDrop (l : List Char) : Option (List Char) :=
  if startsWithList ("```python\n".toList) l then some (l.drop 10)
  else if startsWithList ("```py\n".toList) l then some (l.drop 6)
  else none

/-- Header of the generic-fence regex of line 79: triple backtick, a maximal
(possibly empty) run of word characters, then a newline. -/
def genHeaderDrop (l : List Char) : Option (List Char) :=
  if startsWithList ("```".toList) l then
    match (l.drop 3).dropWhile isWordChar with
    | '\n' :: body => some body
    | _ => none
  else none

/-- Header of a strictly untagged fence: triple backtick immediately
followed by a newline. Used only to state claim C4 in its own words. -/
def untaggedHeaderDrop (l : List Char) : Option (List Char) :=
  if startsWithList ("```\n".toList) l then some (l.drop 4) else none

/-- The left-to-right scan of `re.findall`: at each position try the header;
on a complete match (header plus a closing fence) emit the capture and
resume after the closing fence, otherwise advance one character. The fuel
argument only bounds recursion and never runs out when it starts at
`length + 1`, since every step shortens the remaining text. -/
def scanFence (header : List Char → Option (List Char)) : Nat → List Char → List (List Char)
  | 0, _ => []
  | _ + 1, [] => []
  | fuel + 1, c :: rest =>
    match header (c :: rest) with
    | some body =>
      match findClose body with
      | some (cap, rest2) => cap :: scanFence header fuel rest2
      | none => scanFence header fuel rest
    | none => scanFence header fuel rest

/-- The matches of the python/py tagged-fence `re.findall` of line 74, with
`re.DOTALL`, in source order. -/
def pyFindAll (s : String) : List String :=
  (scanFence pyHeaderDrop (s.toList.length + 1) s.toList).map String.mk

/-- The matches of the generic-fence `re.findall` of line 79, in order. -/
def genericFindAll (s : String) : List String :=
  (scanFence genHeaderDrop (s.toList.length + 1) s.toList).map String.mk

/-- Fenced blocks bearing no language tag at all (claim C4's wording). -/
def untaggedFindAll (s : String) : List String :=
  (scanFence untaggedHeaderDrop (s.toList.length + 1) s.toList).map String.mk

/-- Embedding of `extract_code_from_response` (lines 70-84): last
python/py-tagged block, else last generic block, else the raw response,
each stripped of outer whitespace. -/
def extract_code_from_response (response_text : String) : String :=
  match (pyFindAll response_text).getLast? with
  | some b => pyStrip b
  | none =>
    match (genericFindAll response_text).getLast? with
    | some b => pyStrip b
    | none => pyStrip response_text

/-- One problem record, with the fields the harness reads. A test-case
field is absent (`none`), an already-structured list, or a string still to
be JSON-decoded. -/
structure Problem where
  question_id : Option String
  question_content : String
  starter_code : String
  public_test_cases : Option (List TestCase ⊕ String)
  private_test_cases : Option (List TestCase ⊕ String)

/-- Embedding of `format_prompt` (lines 87-118). -/
def format_prompt (p : Problem) : String :=
  let base := "Solve the following programming problem. Return only the Python code solution, no explanations.\n\n## Problem\n\n"
    ++ p.question_content ++ "\n\n"
  let withStarter :=
    if p.starter_code ≠ "" then
      base ++ "## Starter Code\n\nUse the following function signature:\n\n```python\n"
        ++ p.starter_code ++ "\n```\n\n"
    else base
  withStarter ++ "## Requirements\n\n- Write clean, correct Python code\n- Handle all edge cases\n- Your code should read from stdin and write to stdout if no starter code is provided\n- If starter code is provided, implement the function with that exact signature\n- Return ONLY the code, wrapped in ```python ... ``` markers\n"

/-- One test-case field's contribution (lines 252-266): Python truthiness
skips `None`, empty lists and empty strings; a string field is decoded with
`json.loads`, a `JSONDecodeError` contributing zero cases. -/
def collectField (jp : String → Option (List TestCase)) :
    Option (List TestCase ⊕ String) → List TestCase
  | none => []
  | some (Sum.inl l) => l
  | some (Sum.inr s) =>
    if s = "" then []
    else
      match jp s with
      | some l => l
      | none => []

/-- The concatenated test cases of a problem: public first, then private. -/
def collect_test_cases (jp : String → Option (List TestCase)) (p : Problem) : List TestCase :=
  collectField jp p.public_test_cases ++ collectField jp p.private_test_cases

/-- Body of the try-block of `evaluate_problem` (lines 228-295); an
`Except.error` is an exception reaching the orchestrator boundary. -/
def evalBody (p : Problem) (gen : String → Except String (String × Nat × Nat))
    (sys : String → String → ProcResult) (jp : String → Option (List TestCase)) :
    Except String (Bool × Option String × Nat × Nat) :=
  match gen (format_prompt p) with
  | Except.error e => Except.error e
  | Except.ok (response_text, input_tokens, output_tokens) =>
    let code := extract_code_from_response response_text
    let test_cases := collect_test_cases jp p
    if test_cases.isEmpty then Except.ok (true, none, input_tokens, output_tokens)
    else
      match run_test_cases sys code test_cases with
      | (passed, error_type) => Except.ok (passed, error_type, input_tokens, output_tokens)

/-- The per-problem result record (lines 46-51). -/
structure ProblemResult where
  problem_id : String
  passed : Bool
  error_type : Option String
  latency_ms : Nat
deriving DecidableEq, Repr

/-- Embedding of `evaluate_problem` (lines 215-309): run the body; any
exception is converted to `(passed = false, error_type = api_error)` with
zero tokens instead of being propagated. -/
def evaluate_problem (p : Problem) (gen : String → Except String (String × Nat × Nat))
    (sys : String → String → ProcResult) (jp : String → Option (List TestCase))
    (latency_ms : Nat) : ProblemResult × Nat × Nat :=
  let problem_id := p.question_id.getD "unknown"
  match evalBody p gen sys jp with
  | Except.ok (passed, error_type, input_tokens, output_tokens) =>
    (⟨problem_id, passed, error_type, latency_ms⟩, input_tokens, output_tokens)
  | Except.error _ => (⟨problem_id, false, some "api_error", latency_ms⟩, 0, 0)

/-- Number of passed results (line 408). -/
def passed_count (results : List ProblemResult) : Nat :=
  results.countP (fun r => r.passed)

/-- Number of results (line 409). -/
def total_count (results : List ProblemResult) : Nat := results.length

/-- Aggregate score (line 410): `passed/total`, and `0.0` when total is 0. -/
def score (results : List ProblemResult) : ℚ :=
  if total_count results > 0 then
    (passed_count results : ℚ) / (total_count results : ℚ)
  else 0

/-- The pricing table (lines 27-32), dollars per million tokens. -/
def MODEL_PRICING : List (String × ℚ × ℚ) :=
  [("claude-opus-4-5-20251101", 5, 25),
   ("claude-sonnet-4-20250514", 3, 15),
   ("gpt-4.1", 2, 8),
   ("o3", 2, 8)]

/-- The pricing tier for a model id: `MODEL_PRICING.get(model, default)`
with the default tier `{"input": 5.00, "output": 25.00}` (line 334). -/
def pricingFor (model : String) : ℚ × ℚ :=
  match MODEL_PRICING.lookup model with
  | some pr => pr
  | none => (5, 25)

/-- Embedding of `calculate_cost` (lines 332-337). -/
def calculate_cost (model : String) (input_tokens output_tokens : Nat) : ℚ × ℚ :=
  ((input_tokens : ℚ) / 1000000 * (pricingFor model).1,
   (output_tokens : ℚ) / 1000000 * (pricingFor model).2)

/-- Python `round(x, 4)`: round to 4 decimal places. -/
def round4 (q : ℚ) : ℚ := (round (q * 10000) : ℚ) / 10000

/-- The `input_cost`/`output_cost` fields as persisted in the report
(lines 423-424): the computed costs rounded to 4 decimal places. -/
def report_costs (model : String) (input_tokens output_tokens : Nat) : ℚ × ℚ :=
  (round4 (calculate_cost model input_tokens output_tokens).1,
   round4 (calculate_cost model input_tokens output_tokens).2)

/-- A JSON-decode oracle on which every string is malformed. -/
def jpNoneW : String → Option (List TestCase) := fun _ => none

/-- A generation oracle that always succeeds with an empty response. -/
def genOkW : String → Except String (String × Nat × Nat) := fun _ => Except.ok ("", 0, 0)

/-- A concrete problem used by the orchestrator witnesses. -/
def problemW : Problem := ⟨some "p1", "Print 42", "", none, none⟩

/-- A concrete result list used by the score witness. -/
def resultsW : List ProblemResult :=
  [⟨"p1", true, none, 5⟩, ⟨"p2", false, some "timeout", 6⟩]

lemma exec_shape (pr : ProcResult) :
    (∃ out, execute_code_with_input pr = (true, none, out)) ∨
    (∃ e s, execute_code_with_input pr = (false, some e, s)) := by
  cases pr with
  | timeout => exact Or.inr ⟨"timeout", "", rfl⟩
  | raised m => exact Or.inr ⟨"runtime", m, rfl⟩
  | completed rc out err =>
    by_cases h : rc ≠ 0
    · by_cases hs : containsSyntaxError err
      · exact Or.inr ⟨"syntax", err, by simp [execute_code_with_input, h, hs]⟩
      · exact Or.inr ⟨"runtime", err, by simp [execute_code_with_input, h, hs]⟩
    · exact Or.inl ⟨out, by simp [execute_code_with_input, h]⟩

/-- C1. The Sandbox Executor's classification: timeout ⇒ `timeout`;
non-zero exit with a syntax-error marker in stderr ⇒ `syntax`; non-zero
exit otherwise ⇒ `runtime`; zero exit ⇒ success with the captured stdout
and no error kind — and the timeout budget constant is 30 seconds. -/
theorem execute_classification (rc : Int) (out err : String) :
    CODE_EXECUTION_TIMEOUT = 30 ∧
    execute_code_with_input ProcResult.timeout = (false, some "timeout", "") ∧
    (rc ≠ 0 → containsSyntaxError err = true →
      execute_code_with_input (ProcResult.completed rc out err) = (false, some "syntax", err)) ∧
    (rc ≠ 0 → containsSyntaxError err = false →
      execute_code_with_input (ProcResult.completed rc out err) = (false, some "runtime", err)) ∧
    (rc = 0 →
      execute_code_with_input (ProcResult.completed rc out err) = (true, none, out)) := by
  refine ⟨rfl, rfl, ?_, ?_, ?_⟩
  · intro h hs; simp [execute_code_with_input, h, hs]
  · intro h hs; simp [execute_code_with_input, h, hs]
  · intro h; simp [execute_code_with_input, h]

/-- Witness for `execute_classification` at concrete process outcomes. -/
theorem execute_classification_witness :
    execute_code_with_input (ProcResult.completed 1 "" "SyntaxError: bad") =
      (false, some "syntax", "SyntaxError: bad") ∧
    execute_code_with_input (ProcResult.completed 2 "" "ZeroDivisionError") =
      (false, some "runtime", "ZeroDivisionError") ∧
    execute_code_with_input (ProcResult.completed 0 "42\n" "") = (true, none, "42\n") :=
  ⟨(execute_classification 1 "" "SyntaxError: bad").2.2.1 (by decide) (by decide),
   (execute_classification 2 "" "ZeroDivisionError").2.2.2.1 (by decide) (by decide),
   (execute_classification 0 "42\n" "").2.2.2.2 rfl⟩

lemma run_cons_pass (sys : String → String → ProcResult) (code : String)
    (tc : TestCase) (rest : List TestCase) (h : casePasses sys code tc = true) :
    run_test_cases sys code (tc :: rest) = run_test_cases sys code rest ∧
    run_test_cases_trace sys code (tc :: rest) =
      ((run_test_cases_trace sys code rest).1,
        tc.input :: (run_test_cases_trace sys code rest).2) := by
  rcases exec_shape (sys code tc.input) with ⟨out, hex⟩ | ⟨e, s, hex⟩
  · have hcmp : pyStrip out = pyStrip tc.output := by
      by_cases hc : pyStrip out = pyStrip tc.output
      · exact hc
      · exfalso
        simp only [casePasses, caseOutcome, hex] at h
        simp [hc] at h
    constructor
    · simp only [run_test_cases, hex]
      simp [hcmp]
    · simp only [run_test_cases_trace, hex]
      simp [hcmp]
  · exfalso
    simp only [casePasses, caseOutcome, hex] at h
    simp at h

lemma run_cons_fail (sys : String → String → ProcResult) (code : String)
    (tc : TestCase) (rest : List TestCase) (e : String)
    (h : caseOutcome sys code tc = some e) :
    run_test_cases sys code (tc :: rest) = (false, some e) ∧
    run_test_cases_trace sys code (tc :: rest) = ((false, some e), [tc.input]) := by
  rcases exec_shape (sys code tc.input) with ⟨out, hex⟩ | ⟨e', s, hex⟩
  · by_cases hc : pyStrip out = pyStrip tc.output
    · exfalso
      simp only [caseOutcome, hex] at h
      simp [hc] at h
    · have he : "wrong_answer" = e := by
        simp only [caseOutcome, hex] at h
        simpa [hc] using h
      constructor
      · simp only [run_test_cases, hex]
        simp [hc, he]
      · simp only [run_test_cases_trace, hex]
        simp [hc, he]
  · have he : e' = e := by
      simp only [caseOutcome, hex] at h
      simpa using h
    constructor
    · simp only [run_test_cases, hex]
      simp [he]
    · simp only [run_test_cases_trace, hex]
      simp [he]

lemma run_trace_fst (sys : String → String → ProcResult) (code : String) :
    ∀ cs : List TestCase,
      (run_test_cases_trace sys code cs).1 = run_test_cases sys code cs := by
  intro cs
  induction cs with
  | nil => rfl
  | cons tc rest ih =>
    rcases exec_shape (sys code tc.input) with ⟨out, hex⟩ | ⟨e, s, hex⟩
    · by_cases hc : pyStrip out = pyStrip tc.output
      · simp only [run_test_cases, run_test_cases_trace, hex]
        simp [hc, ih]
      · simp only [run_test_cases, run_test_cases_trace, hex]
        simp [hc]
    · simp only [run_test_cases, run_test_cases_trace, hex]
      simp

lemma run_first_fail_aux (sys : String → String → ProcResult) (code : String) :
    ∀ (cs : List TestCase) (k : Nat) (hk : k < cs.length),
      casePasses sys code (cs.get ⟨k, hk⟩) = false →
      (∀ j, ∀ hj : j < k, casePasses sys code (cs.get ⟨j, Nat.lt_trans hj hk⟩) = true) →
      run_test_cases sys code cs = (false, caseOutcome sys code (cs.get ⟨k, hk⟩)) ∧
      (run_test_cases_trace sys code cs).2 = (cs.take (k + 1)).map TestCase.input := by
  intro cs
  induction cs with
  | nil => intro k hk _ _; exact absurd hk (Nat.not_lt_zero k)
  | cons tc rest ih =>
    intro k hk hfail hpre
    cases k with
    | zero =>
      have htc : (tc :: rest).get ⟨0, hk⟩ = tc := rfl
      rw [htc] at hfail
      obtain ⟨e, he⟩ : ∃ e, caseOutcome sys code tc = some e := by
        cases hco : caseOutcome sys code tc with
        | none =>
          exfalso
          rw [casePasses, hco] at hfail
          simp at hfail
        | some e => exact ⟨e, rfl⟩
      have hstep := run_cons_fail sys code tc rest e he
      constructor
      · rw [htc, he, hstep.1]
      · rw [hstep.2]
        simp
    | succ k' =>
      have h0 : casePasses sys code tc = true := hpre 0 (Nat.succ_pos k')
      have hstep := run_cons_pass sys code tc rest h0
      have hk' : k' < rest.length := Nat.lt_of_succ_lt_succ hk
      have hfail' : casePasses sys code (rest.get ⟨k', hk'⟩) = false := hfail
      have hpre' : ∀ j, ∀ hj : j < k',
          casePasses sys code (rest.get ⟨j, Nat.lt_trans hj hk'⟩) = true :=
        fun j hj => hpre (j + 1) (Nat.succ_lt_succ hj)
      obtain ⟨ihr, ihtr⟩ := ih k' hk' hfail' hpre'
      constructor
      · rw [hstep.1]
        exact ihr
      · rw [hstep.2]
        simp only [List.take_succ_cons, List.map_cons]
        rw [ihtr]

/-- Claim C2: the Test Verifier processes cases strictly in order; if case k
is the first failing case then the result is `(false, case k's error kind)`
and no case after k is ever handed to the sandbox (the trace of executed
inputs is exactly the first k+1 inputs); and the empty test-case sequence
yields `(true, none)` regardless of code content. -/
theorem run_test_cases_first_failure (sys : String → String → ProcResult) (code : String)
    (cs : List TestCase) (k : Nat) (hk : k < cs.length)
    (hfail : casePasses sys code (cs.get ⟨k, hk⟩) = false)
    (hpre : ∀ j, ∀ hj : j < k, casePasses sys code (cs.get ⟨j, Nat.lt_trans hj hk⟩) = true) :
    run_test_cases sys code cs = (false, caseOutcome sys code (cs.get ⟨k, hk⟩)) ∧
    (run_test_cases_trace sys code cs).2 = (cs.take (k + 1)).map TestCase.input ∧
    run_test_cases sys code [] = (true, none) := by
  obtain ⟨h1, h2⟩ := run_first_fail_aux sys code cs k hk hfail hpre
  exact ⟨h1, h2, rfl⟩

/-- Witness for `run_test_cases_first_failure`: with an always-timing-out
sandbox, only the first of two cases is executed and its kind is reported. -/
theorem run_test_cases_first_failure_witness :
    run_test_cases sysTimeoutW "c" casesW = (false, some "timeout") ∧
    (run_test_cases_trace sysTimeoutW "c" casesW).2 = ["a"] := by
  have h := run_test_cases_first_failure sysTimeoutW "c" casesW 0 (by decide) (by decide)
    (fun j hj => absurd hj (Nat.not_lt_zero j))
  exact ⟨h.1.trans (by decide), h.2.1.trans (by decide)⟩

/-- Claim C3: when execution succeeds on a case, the verifier compares the
captured stdout with the expected output after stripping only leading and
trailing whitespace from each side; interior differences fail with
`wrong_answer`. -/
theorem output_comparison_trim (sys : String → String → ProcResult)
    (code inp expected out err : String)
    (h : sys code inp = ProcResult.completed 0 out err) :
    run_test_cases sys code [⟨inp, expected⟩] =
      if pyStrip out = pyStrip expected then (true, none)
      else (false, some "wrong_answer") := by
  simp only [run_test_cases, h, execute_code_with_input]
  by_cases hc : pyStrip out = pyStrip expected
  · simp [hc, run_test_cases]
  · simp [hc]

/-- Witness for `output_comparison_trim`: expected `"42"` against stdout
`"  42  \n"` passes, while stdout `"42\n43"` is a `wrong_answer`. -/
theorem output_comparison_trim_witness :
    run_test_cases (sysOutW "  42  \n") "c" [⟨"", "42"⟩] = (true, none) ∧
    run_test_cases (sysOutW "42\n43") "c" [⟨"", "42"⟩] = (false, some "wrong_answer") :=
  ⟨(output_comparison_trim (sysOutW "  42  \n") "c" "" "42" "  42  \n" "" rfl).trans
      (by decide),
   (output_comparison_trim (sysOutW "42\n43") "c" "" "42" "42\n43" "" rfl).trans
      (by decide)⟩

lemma startsWithList_cons_ne (p : Char) (ps : List Char) (c : Char) (cs : List Char)
    (h : p ≠ c) : startsWithList (p :: ps) (c :: cs) = false := by
  simp [startsWithList, h]

lemma headers_none (c : Char) (rest : List Char) (hc : c ≠ '\x60') :
    pyHeaderDrop (c :: rest) = none ∧ genHeaderDrop (c :: rest) = none ∧
    untaggedHeaderDrop (c :: rest) = none := by
  have e1 : "```python\n".toList = '\x60' :: "``python\n".toList := by decide
  have e2 : "```py\n".toList = '\x60' :: "``py\n".toList := by decide
  have e3 : "```".toList = '\x60' :: "``".toList := by decide
  have e4 : "```\n".toList = '\x60' :: "``\n".toList := by decide
  have hne : ('\x60' : Char) ≠ c := Ne.symm hc
  refine ⟨?_, ?_, ?_⟩
  · rw [pyHeaderDrop, e1, e2, startsWithList_cons_ne _ _ _ _ hne,
      startsWithList_cons_ne _ _ _ _ hne]
    rfl
  · rw [genHeaderDrop, e3, startsWithList_cons_ne _ _ _ _ hne]
    rfl
  · rw [untaggedHeaderDrop, e4, startsWithList_cons_ne _ _ _ _ hne]
    rfl

lemma scanFence_none (header : List Char → Option (List Char))
    (hh : ∀ c rest, c ≠ '\x60' → header (c :: rest) = none) :
    ∀ (fuel : Nat) (l : List Char), (∀ c ∈ l, c ≠ '\x60') →
      scanFence header fuel l = [] := by
  intro fuel
  induction fuel with
  | zero => intro l _; rfl
  | succ n ih =>
    intro l hl
    cases l with
    | nil => rfl
    | cons c rest =>
      have hc : c ≠ '\x60' := hl c (List.mem_cons_self c rest)
      rw [scanFence, hh c rest hc]
      exact ih rest (fun x hx => hl x (List.mem_cons_of_mem c hx))

lemma pyStrip_whitespace (s : String) (h : ∀ c ∈ s.toList, c.isWhitespace = true) :
    pyStrip s = "" := by
  rw [pyStrip, List.dropWhile_eq_nil_iff.mpr h]
  rfl

/-- Claim C4 as stated is false: a response whose only fenced block is
tagged `javascript` has no python/py-tagged block and no untagged block,
so the claim requires the raw-response fallback, yet the extractor returns
the javascript block's contents. -/
theorem extract_untagged_claim_cex :
    pyFindAll "```javascript\nA\n```" = [] ∧
    untaggedFindAll "```javascript\nA\n```" = [] ∧
    extract_code_from_response "```javascript\nA\n```" = "A" ∧
    extract_code_from_response "```javascript\nA\n```" ≠
      pyStrip "```javascript\nA\n```" := by
  refine ⟨by decide, by decide, by decide, by decide⟩

/-- Claim C4 (amended): the extractor returns the stripped contents of the
last python/py-tagged fenced block when one exists; otherwise the stripped
contents of the last fenced block bearing any single-word tag or no tag;
otherwise the whole response stripped — so an unterminated fence falls
through to the raw-response fallback, and empty or whitespace-only input
yields the empty string. -/
theorem extract_last_block (s : String) :
    (∀ b, (pyFindAll s).getLast? = some b → extract_code_from_response s = pyStrip b) ∧
    (pyFindAll s = [] → ∀ b, (genericFindAll s).getLast? = some b →
      extract_code_from_response s = pyStrip b) ∧
    (pyFindAll s = [] → genericFindAll s = [] →
      extract_code_from_response s = pyStrip s) ∧
    (s.toList.all Char.isWhitespace = true → extract_code_from_response s = "") := by
  refine ⟨?_, ?_, ?_, ?_⟩
  · intro b hb
    simp only [extract_code_from_response, hb]
  · intro hpy b hb
    simp only [extract_code_from_response, hpy, List.getLast?_nil, hb]
  · intro hpy hgen
    simp only [extract_code_from_response, hpy, hgen, List.getLast?_nil]
  · intro hws
    have hall : ∀ c ∈ s.toList, c.isWhitespace = true := by
      intro c hcin
      exact List.all_eq_true.mp hws c hcin
    have hnb : ∀ c ∈ s.toList, c ≠ '\x60' := by
      intro c hcin heq
      have h1 := hall c hcin
      rw [heq] at h1
      exact absurd h1 (by decide)
    have hpy : pyFindAll s = [] := by
      rw [pyFindAll,
        scanFence_none pyHeaderDrop (fun c rest hc => (headers_none c rest hc).1)
          _ _ hnb]
      rfl
    have hgen : genericFindAll s = [] := by
      rw [genericFindAll,
        scanFence_none genHeaderDrop (fun c rest hc => (headers_none c rest hc).2.1)
          _ _ hnb]
      rfl
    simp only [extract_code_from_response, hpy, hgen, List.getLast?_nil]
    exact pyStrip_whitespace s hall

/-- Witness for `extract_last_block`: last-of-two-tagged-blocks wins, an
unterminated fence falls back to the raw response, and whitespace-only
input extracts to the empty string. -/
theorem extract_last_block_witness :
    extract_code_from_response "```python\nA\n```\n```python\nB\n```" = "B" ∧
    extract_code_from_response "```python\ncode" = "```python\ncode" ∧
    extract_code_from_response "   \n\t  " = "" := by
  have h1 := (extract_last_block "```python\nA\n```\n```python\nB\n```").1 "B\n" (by decide)
  have h2 := (extract_last_block "```python\ncode").2.2.1 (by decide) (by decide)
  have h3 := (extract_last_block "   \n\t  ").2.2.2 (by decide)
  exact ⟨h1.trans (by decide), h2.trans (by decide), h3⟩

/-- Claim C10: when no python/py-tagged block exists but the generic-fence
scan (which accepts any single-word language tag) finds blocks, the
extractor returns the stripped contents of the last such block rather than
falling back to the raw response. -/
theorem generic_tag_extraction (s b : String)
    (hpy : pyFindAll s = []) (hgen : (genericFindAll s).getLast? = some b) :
    extract_code_from_response s = pyStrip b := by
  simp only [extract_code_from_response, hpy, List.getLast?_nil, hgen]

/-- Witness for `generic_tag_extraction`: a lone ruby-tagged block is
extracted instead of the raw-response fallback. -/
theorem generic_tag_extraction_witness :
    extract_code_from_response "```ruby\nB\n```" = "B" :=
  (generic_tag_extraction "```ruby\nB\n```" "B\n" (by decide) (by decide)).trans (by decide)

lemma run_shape (sys : String → String → ProcResult) (code : String) :
    ∀ cs : List TestCase,
      run_test_cases sys code cs = (true, none) ∨
      ∃ e, run_test_cases sys code cs = (false, some e) := by
  intro cs
  induction cs with
  | nil => exact Or.inl rfl
  | cons tc rest ih =>
    rcases exec_shape (sys code tc.input) with ⟨out, hex⟩ | ⟨e, s, hex⟩
    · by_cases hc : pyStrip out = pyStrip tc.output
      · have hstep : run_test_cases sys code (tc :: rest) = run_test_cases sys code rest := by
          simp only [run_test_cases, hex]
          simp [hc]
        rw [hstep]
        exact ih
      · refine Or.inr ⟨"wrong_answer", ?_⟩
        simp only [run_test_cases, hex]
        simp [hc]
    · refine Or.inr ⟨e, ?_⟩
      simp only [run_test_cases, hex]
      simp

lemma evalBody_shape (p : Problem) (gen : String → Except String (String × Nat × Nat))
    (sys : String → String → ProcResult) (jp : String → Option (List TestCase)) :
    (∃ e, evalBody p gen sys jp = Except.error e) ∨
    (∃ it ot, evalBody p gen sys jp = Except.ok (true, none, it, ot)) ∨
    (∃ e it ot, evalBody p gen sys jp = Except.ok (false, some e, it, ot)) := by
  cases hg : gen (format_prompt p) with
  | error e => exact Or.inl ⟨e, by simp only [evalBody, hg]⟩
  | ok trip =>
    obtain ⟨rt, it, ot⟩ := trip
    cases hemp : (collect_test_cases jp p).isEmpty with
    | true =>
      refine Or.inr (Or.inl ⟨it, ot, ?_⟩)
      simp only [evalBody, hg]
      simp [hemp]
    | false =>
      rcases run_shape sys (extract_code_from_response rt) (collect_test_cases jp p) with
        hr | ⟨e, hr⟩
      · refine Or.inr (Or.inl ⟨it, ot, ?_⟩)
        simp only [evalBody, hg]
        simp [hemp, hr]
      · refine Or.inr (Or.inr ⟨e, it, ot, ?_⟩)
        simp only [evalBody, hg]
        simp [hemp, hr]

/-- Claim C5: a failed generation call — an exception reaching the
orchestrator boundary — yields `(passed = false, error_kind = api_error)`
with zero input and output tokens, and `evaluate_problem` returns normally
instead of propagating the exception. -/
theorem evaluate_problem_api_error (p : Problem)
    (gen : String → Except String (String × Nat × Nat))
    (sys : String → String → ProcResult) (jp : String → Option (List TestCase))
    (latency_ms : Nat) (e : String) :
    evalBody p (fun _ => Except.error e) sys jp = Except.error e ∧
    (evalBody p gen sys jp = Except.error e →
      evaluate_problem p gen sys jp latency_ms =
        (⟨p.question_id.getD "unknown", false, some "api_error", latency_ms⟩, 0, 0)) := by
  constructor
  · rfl
  · intro h
    simp only [evaluate_problem, h]

/-- Witness for `evaluate_problem_api_error` at a concrete failing call. -/
theorem evaluate_problem_api_error_witness :
    evaluate_problem problemW (fun _ => Except.error "boom") sysTimeoutW jpNoneW 7 =
      (⟨"p1", false, some "api_error", 7⟩, 0, 0) :=
  (evaluate_problem_api_error problemW (fun _ => Except.error "boom")
    sysTimeoutW jpNoneW 7 "boom").2 rfl

/-- Claim C7: in every `ProblemResult` produced by `evaluate_problem`, the
error kind is non-null exactly when `passed` is false. -/
theorem error_kind_iff_not_passed (p : Problem)
    (gen : String → Except String (String × Nat × Nat))
    (sys : String → String → ProcResult) (jp : String → Option (List TestCase))
    (latency_ms : Nat) :
    ((evaluate_problem p gen sys jp latency_ms).1.error_type).isSome =
      !(evaluate_problem p gen sys jp latency_ms).1.passed := by
  rcases evalBody_shape p gen sys jp with ⟨e, hb⟩ | ⟨it, ot, hb⟩ | ⟨e, it, ot, hb⟩ <;>
    simp [evaluate_problem, hb]

lemma collectField_bad (jp : String → Option (List TestCase)) (s : String)
    (h : jp s = none) : collectField jp (some (Sum.inr s)) = [] := by
  by_cases hs : s = ""
  · simp [collectField, hs]
  · simp [collectField, hs, h]

/-- Claim C6: the public and private test-case fields are parsed
independently; a malformed string encoding on either field contributes zero
cases without being fatal (the problem is evaluated exactly as if that
field were absent), and structured fields are concatenated
public-then-private with order preserved. -/
theorem test_case_fields_independent
    (jp : String → Option (List TestCase)) (s : String) (hbad : jp s = none)
    (qid : Option String) (qc sc : String)
    (pub priv : Option (List TestCase ⊕ String))
    (gen : String → Except String (String × Nat × Nat))
    (sys : String → String → ProcResult) (lm : Nat) :
    collect_test_cases jp ⟨qid, qc, sc, some (Sum.inr s), priv⟩ =
      collect_test_cases jp ⟨qid, qc, sc, none, priv⟩ ∧
    collect_test_cases jp ⟨qid, qc, sc, pub, some (Sum.inr s)⟩ =
      collect_test_cases jp ⟨qid, qc, sc, pub, none⟩ ∧
    evaluate_problem ⟨qid, qc, sc, some (Sum.inr s), priv⟩ gen sys jp lm =
      evaluate_problem ⟨qid, qc, sc, none, priv⟩ gen sys jp lm ∧
    (∀ pubL privL : List TestCase,
      collect_test_cases jp ⟨qid, qc, sc, some (Sum.inl pubL), some (Sum.inl privL)⟩ =
        pubL ++ privL) := by
  have h1 : collect_test_cases jp ⟨qid, qc, sc, some (Sum.inr s), priv⟩ =
      collect_test_cases jp ⟨qid, qc, sc, none, priv⟩ := by
    simp [collect_test_cases, collectField, hbad]
  have hb : evalBody ⟨qid, qc, sc, some (Sum.inr s), priv⟩ gen sys jp =
      evalBody ⟨qid, qc, sc, none, priv⟩ gen sys jp := by
    simp only [evalBody, h1]
    rfl
  refine ⟨h1, ?_, ?_, ?_⟩
  · simp [collect_test_cases, collectField, hbad]
  · simp only [evaluate_problem, hb]
  · intro pubL privL
    simp [collect_test_cases, collectField]

/-- Witness for `test_case_fields_independent`: a malformed public field is
dropped while the structured private field still supplies its case. -/
theorem test_case_fields_independent_witness :
    collect_test_cases jpNoneW
        ⟨some "p1", "q", "", some (Sum.inr "oops"), some (Sum.inl [⟨"i", "o"⟩])⟩ =
      collect_test_cases jpNoneW ⟨some "p1", "q", "", none, some (Sum.inl [⟨"i", "o"⟩])⟩ ∧
    collect_test_cases jpNoneW
        ⟨some "p1", "q", "", some (Sum.inr "oops"), some (Sum.inl [⟨"i", "o"⟩])⟩ =
      [⟨"i", "o"⟩] := by
  have h := (test_case_fields_independent jpNoneW "oops" rfl (some "p1") "q" ""
    none (some (Sum.inl [⟨"i", "o"⟩])) genOkW sysTimeoutW 0).1
  exact ⟨h, h.trans (by decide)⟩

/-- Claim C8: the aggregate score is `passed_count / total_count` when the
total is positive and exactly 0 when the total is 0, with no division
fault. -/
theorem score_definition (results : List ProblemResult) :
    (total_count results ≠ 0 →
      score results = (passed_count results : ℚ) / (total_count results : ℚ)) ∧
    (total_count results = 0 → score results = 0) := by
  constructor
  · intro h
    simp [score, Nat.pos_of_ne_zero h]
  · intro h
    simp [score, h]

/-- Witness for `score_definition`: one pass out of two gives score 1/2. -/
theorem score_definition_witness :
    total_count resultsW ≠ 0 ∧ score resultsW = (1 : ℚ) / 2 := by
  have h := (score_definition resultsW).1 (by decide)
  refine ⟨by decide, h.trans ?_⟩
  rw [show passed_count resultsW = 1 from by decide,
    show total_count resultsW = 2 from by decide]
  norm_num

/-- Claim C9: cost is `tokens / 1,000,000 ×` the matching pricing-table
price, independently for input and output; an unknown model id uses the
default tier `(5, 25)`; and the persisted report's cost fields are the
computed costs rounded to 4 decimal places. -/
theorem cost_calculation (model : String) (input_tokens output_tokens : Nat) :
    calculate_cost model input_tokens output_tokens =
      ((input_tokens : ℚ) / 1000000 * (pricingFor model).1,
       (output_tokens : ℚ) / 1000000 * (pricingFor model).2) ∧
    (MODEL_PRICING.lookup model = none → pricingFor model = (5, 25)) ∧
    report_costs model input_tokens output_tokens =
      (round4 (calculate_cost model input_tokens output_tokens).1,
       round4 (calculate_cost model input_tokens output_tokens).2) := by
  refine ⟨rfl, ?_, rfl⟩
  intro h
  simp [pricingFor, h]

/-- Witness for `cost_calculation`: an unknown model id falls back to the
default pricing tier. -/
theorem cost_calculation_witness :
    MODEL_PRICING.lookup "mystery-model" = none ∧
    pricingFor "mystery-model" = (5, 25) :=
  ⟨by decide, (cost_calculation "mystery-model" 0 0).2.1 (by decide)⟩
